import Mathlib

/-!
Verification development for the chatbot gateway server (`server/index.js`).

The server is a small Express application holding two pieces of in-memory
state: a map from user ids to conversation histories (`userSessions`) and a
global weekly prompt counter (`promptCounter`).  The definitions below are a
shallow embedding of that code: JavaScript `Date` values become millisecond
timestamps (`Nat`), the session `Map` becomes an association list, and the
external OpenAI call becomes an explicit oracle argument
`infer : String → List Message → InferenceResult` (the `String` is the API
key sent in the Authorization header).  Each handler returns the updated
state together with the HTTP response it sends.
-/

namespace Gpt360

/-- A chat message `{role, content}` as stored in a session history and sent
to the inference service. -/
structure Message where
  role : String
  content : String
deriving DecidableEq, Repr

/-- The global prompt counter: `count` prompts used since `weekStart`
(a millisecond timestamp, from `new Date()`). -/
structure PromptCounter where
  count : Nat
  weekStart : Nat
deriving DecidableEq, Repr

/-- The server's in-memory state: `userSessions` (a `Map` from userId to
conversation history) and the singleton `promptCounter`. -/
structure ServerState where
  userSessions : List (String × List Message)
  promptCounter : PromptCounter
deriving DecidableEq, Repr

/-- One week in milliseconds: `7 * 24 * 60 * 60 * 1000`. -/
def weekMs : Nat := 7 * 24 * 60 * 60 * 1000

/-- `promptCounter.resetWeekly()`: computes
`weeksSince = floor((now - weekStart) / weekMs)` and, if at least one full
week has elapsed, resets `count` to 0 and `weekStart` to `now`; otherwise
leaves the counter untouched.  (Nat truncated subtraction agrees with the
JavaScript original also when `now < weekStart`: there `weeksSince` is
negative, so no reset happens, and here `now - weekStart = 0` likewise
yields no reset.) -/
def resetWeekly (now : Nat) (pc : PromptCounter) : PromptCounter :=
  let weeksSince := (now - pc.weekStart) / weekMs
  if weeksSince ≥ 1 then { count := 0, weekStart := now } else pc

/-- `Map.set`: replace the binding of `k` if present, else append it. -/
def mapSet (k : String) (v : List Message) :
    List (String × List Message) → List (String × List Message)
  | [] => [(k, v)]
  | (k2, v2) :: rest =>
      if k2 = k then (k, v) :: rest else (k2, v2) :: mapSet k v rest

/-- Outcome of the `axios.post` call to the OpenAI API, as classified by the
handler's `catch` block: a successful reply, an HTTP error response with a
status and a raw upstream payload (`error.response.status` /
`error.response.data`), or a transport failure with no HTTP response. -/
inductive InferenceResult where
  | success (reply : String)
  | httpError (status : Nat) (data : String)
  | networkError (message : String)
deriving DecidableEq, Repr

/-- The JSON bodies the server sends, one constructor per response shape. -/
inductive ResponseBody where
  | chatOk (response : String) (promptsRemaining : Nat)
  | errorMsg (error : String)
  | errorWithCode (error : String) (code : String)
  | userNewBody (userId : String) (message : String)
  | historyBody (history : List Message)
  | statsBody (promptsUsed maxPrompts remaining weekStart : Nat)
  | healthBody (status : String) (timestamp : Nat) (promptsUsed maxPrompts : Nat)
deriving DecidableEq, Repr

/-- An HTTP response: status code plus JSON body. -/
structure HttpResponse where
  status : Nat
  body : ResponseBody
deriving DecidableEq, Repr

/-- The fixed system instruction prepended to every inference request. -/
def systemMessage : Message :=
  ⟨"system", "Tu es un assistant IA utile et bienveillant. Réponds de manière concise et professionnelle en français."⟩

/-- Context assembly (lines 123-133 of the handler): the fixed system
instruction, then the session's current history, then the new user
message. -/
def contextMessages (conversation : List Message) (message : String) : List Message :=
  systemMessage :: (conversation ++ [⟨"user", message⟩])

/-- The history trim (lines 157-159): if the conversation exceeds 20
messages, `splice(0, length - 20)` drops the oldest entries from the front,
keeping the most recent 20. -/
def trimHistory (conversation : List Message) : List Message :=
  if conversation.length > 20 then
    conversation.drop (conversation.length - 20)
  else conversation

/-- The history update of a successful chat call (lines 151-159): push the
user/assistant pair, then trim to 20 messages. -/
def appendExchange (conversation : List Message) (userContent assistantContent : String) :
    List Message :=
  trimHistory (conversation ++ [⟨"user", userContent⟩, ⟨"assistant", assistantContent⟩])

/-- Result of a `POST /api/chat` request: the new server state, the HTTP
response, and the list of message sequences actually sent to the external
inference service during the request (empty when the handler returns before
the `axios.post` call, a singleton when the call is issued). -/
structure ChatOutcome where
  state : ServerState
  resp : HttpResponse
  calls : List (List Message)
deriving DecidableEq, Repr

/-- The quota-exceeded error message (line 114). -/
def quotaErrorMsg (maxPrompts : Nat) : String :=
  "Limite hebdomadaire de " ++ toString maxPrompts ++
    " prompts atteinte. Réessayez la semaine prochaine."

/-- The tail of the chat handler, from the external call's outcome on.
On success (lines 148-169): push the user/assistant pair and trim
(`appendExchange`), increment the counter, and answer 200 with the reply
and `Math.max(0, MAX - count)` remaining (Nat truncated subtraction).
On failure (the `catch` block, lines 171-187): `error.response?.status ===
401` yields a 500 "Clé API OpenAI invalide", `=== 429` yields a 429, and
everything else — any other HTTP status, or a transport error with no HTTP
response — yields a generic 500.  `sessions` is the session map and `pc`
the counter after the lazy reset; neither is touched on failure. -/
def afterCall (maxPrompts : Nat) (sessions : List (String × List Message))
    (pc : PromptCounter) (userId message : String) (conversation : List Message)
    (messages : List Message) : InferenceResult → ChatOutcome
  | .success aiResponse =>
      ⟨⟨mapSet userId (appendExchange conversation message aiResponse) sessions,
        ⟨pc.count + 1, pc.weekStart⟩⟩,
       ⟨200, .chatOk aiResponse (maxPrompts - (pc.count + 1))⟩,
       [messages]⟩
  | .httpError status _ =>
      if status = 401 then
        ⟨⟨sessions, pc⟩, ⟨500, .errorMsg "Clé API OpenAI invalide"⟩, [messages]⟩
      else if status = 429 then
        ⟨⟨sessions, pc⟩,
         ⟨429, .errorMsg "Limite de l\x27API OpenAI atteinte, réessayez plus tard"⟩,
         [messages]⟩
      else
        ⟨⟨sessions, pc⟩, ⟨500, .errorMsg "Erreur interne du serveur"⟩, [messages]⟩
  | .networkError _ =>
      ⟨⟨sessions, pc⟩, ⟨500, .errorMsg "Erreur interne du serveur"⟩, [messages]⟩

/-- `POST /api/chat` (lines 92-188).  Parameters: `maxPrompts` is the
configured `MAX_PROMPTS_PER_WEEK`, `now` the current time, `apiKey` the
`OPENAI_API_KEY` put in the Authorization header, `infer` the external
inference service, and `userId`/`message` the request body.  Steps, in the
source's order: validation (400 when either field is falsy, i.e. the empty
string), session existence (404), lazy weekly reset followed by the quota
check (429 with code `WEEKLY_LIMIT_EXCEEDED`, issued before any external
call), context assembly, then the external call and `afterCall`. -/
def chatHandler (maxPrompts now : Nat) (apiKey : String)
    (infer : String → List Message → InferenceResult)
    (st : ServerState) (userId message : String) : ChatOutcome :=
  if userId = "" ∨ message = "" then
    ⟨st, ⟨400, .errorMsg "userId et message sont requis"⟩, []⟩
  else
    match st.userSessions.lookup userId with
    | none => ⟨st, ⟨404, .errorMsg "Session utilisateur non trouvée"⟩, []⟩
    | some conversation =>
      if (resetWeekly now st.promptCounter).count ≥ maxPrompts then
        ⟨⟨st.userSessions, resetWeekly now st.promptCounter⟩,
         ⟨429, .errorWithCode (quotaErrorMsg maxPrompts) "WEEKLY_LIMIT_EXCEEDED"⟩, []⟩
      else
        afterCall maxPrompts st.userSessions (resetWeekly now st.promptCounter)
          userId message conversation (contextMessages conversation message)
          (infer apiKey (contextMessages conversation message))

/-- `POST /api/user/new` (lines 55-63): store an empty history under a fresh
id (the uuid, passed here as `freshId`) and return it. -/
def userNewHandler (freshId : String) (st : ServerState) : ServerState × HttpResponse :=
  ⟨⟨mapSet freshId [] st.userSessions, st.promptCounter⟩,
   ⟨200, .userNewBody freshId "Nouvelle session créée avec succès"⟩⟩

/-- `GET /api/user/:userId/history` (lines 66-77). -/
def historyHandler (st : ServerState) (userId : String) : ServerState × HttpResponse :=
  match st.userSessions.lookup userId with
  | none => ⟨st, ⟨404, .errorMsg "Session utilisateur non trouvée"⟩⟩
  | some history => ⟨st, ⟨200, .historyBody history⟩⟩

/-- `GET /api/stats` (lines 80-89): performs the lazy weekly reset, then
reports the count, the maximum, `Math.max(0, MAX - count)` (which Nat
truncated subtraction computes directly) and the window start. -/
def statsHandler (maxPrompts now : Nat) (st : ServerState) : ServerState × HttpResponse :=
  let pc := resetWeekly now st.promptCounter
  ⟨⟨st.userSessions, pc⟩,
   ⟨200, .statsBody pc.count maxPrompts (maxPrompts - pc.count) pc.weekStart⟩⟩

/-- `GET /api/health` (lines 191-198): reports the raw counter value with no
reset check and no state change. -/
def healthHandler (maxPrompts now : Nat) (st : ServerState) : ServerState × HttpResponse :=
  ⟨st, ⟨200, .healthBody "OK" now st.promptCounter.count maxPrompts⟩⟩

/-!
## Sequences of chat exchanges

`runExchanges` iterates the history update of the chat handler: starting
from the empty history a session is created with, each successful exchange
appends one user/assistant pair and trims.  `fullLog` is the untruncated
transcript of the same exchanges, used to state which entries survive.
-/

/-- Iterated history update starting from an arbitrary history. -/
def runExchangesFrom (conversation : List Message) (pairs : List (String × String)) :
    List Message :=
  pairs.foldl (fun conv p => appendExchange conv p.1 p.2) conversation

/-- The session history after a sequence of successful chat exchanges,
starting from the empty history a new session is created with. -/
def runExchanges (pairs : List (String × String)) : List Message :=
  runExchangesFrom [] pairs

/-- The untruncated transcript of a sequence of exchanges. -/
def fullLog (pairs : List (String × String)) : List Message :=
  pairs.flatMap (fun p => [⟨"user", p.1⟩, ⟨"assistant", p.2⟩])

/-- The last `n` elements of a list (all of it when it is shorter). -/
def lastN (n : Nat) (l : List α) : List α :=
  l.drop (l.length - n)

/-- A well-formed history: a sequence of user/assistant pairs, i.e. even
length with role "user" at even positions and "assistant" at odd ones. -/
def wfHistory : List Message → Bool
  | [] => true
  | [_] => false
  | u :: a :: rest => u.role == "user" && a.role == "assistant" && wfHistory rest

/-!
## Interleaved execution of the quota check and increment

In the chat handler the quota check (`promptCounter.count >= MAX`, line 112)
runs before the `await` of the external call, and the increment
(`promptCounter.count++`, line 164) runs after it.  Node's event loop can
interleave other requests at the `await`.  `concStep` models one request
taking one of these two atomic steps against the shared counter: a request
in phase `checking` either fails the check (when `count ≥ maxPrompts`,
finishing rejected) or passes it and moves to `inFlight` (awaiting the
external call with its increment still pending); a request in phase
`inFlight` performs the increment and finishes accepted.  A schedule is the
list of request indices in the order the event loop runs their steps. -/
inductive ReqPhase where
  | checking
  | inFlight
  | done (allowed : Bool)
deriving DecidableEq, Repr

/-- Shared counter value plus the phase of each in-flight request. -/
structure ConcState where
  count : Nat
  reqs : List ReqPhase
deriving DecidableEq, Repr

/-- Request `i` takes its next atomic step (no-op when `i` is out of range
or already done). -/
def concStep (maxPrompts : Nat) (s : ConcState) (i : Nat) : ConcState :=
  match s.reqs[i]? with
  | some .checking =>
      if s.count ≥ maxPrompts then ⟨s.count, s.reqs.set i (.done false)⟩
      else ⟨s.count, s.reqs.set i .inFlight⟩
  | some .inFlight => ⟨s.count + 1, s.reqs.set i (.done true)⟩
  | _ => s

/-- Run a schedule of atomic steps. -/
def concRun (maxPrompts : Nat) (s : ConcState) (sched : List Nat) : ConcState :=
  sched.foldl (concStep maxPrompts) s

/-- Sequential (serialized) execution of a batch of chat requests: each
request's handler runs to completion before the next starts. -/
def runChats (maxPrompts now : Nat) (apiKey : String)
    (infer : String → List Message → InferenceResult)
    (st : ServerState) (reqs : List (String × String)) : ServerState :=
  reqs.foldl (fun s r => (chatHandler maxPrompts now apiKey infer s r.1 r.2).state) st

/-- A concrete one-session server state used to exercise the handlers. -/
def exSt : ServerState := ⟨[("u", [])], ⟨0, 0⟩⟩

/-!
## Helper lemmas
-/

lemma weekMs_pos : 0 < weekMs := by norm_num [weekMs]

/-- The reset fires iff a full week's worth of milliseconds has elapsed. -/
lemma resetWeekly_fire {now : Nat} {pc : PromptCounter}
    (h : weekMs ≤ now - pc.weekStart) : resetWeekly now pc = ⟨0, now⟩ := by
  have : 1 ≤ (now - pc.weekStart) / weekMs :=
    (Nat.le_div_iff_mul_le weekMs_pos).2 (by simpa using h)
  simp only [resetWeekly, ge_iff_le, this, if_true]

lemma resetWeekly_skip {now : Nat} {pc : PromptCounter}
    (h : now - pc.weekStart < weekMs) : resetWeekly now pc = pc := by
  have : ¬ 1 ≤ (now - pc.weekStart) / weekMs := by
    intro hc
    exact absurd ((Nat.le_div_iff_mul_le weekMs_pos).1 hc) (by simpa using Nat.not_le.2 h)
  simp only [resetWeekly, ge_iff_le, this, if_false]

lemma resetWeekly_cases (now : Nat) (pc : PromptCounter) :
    resetWeekly now pc = pc ∨ resetWeekly now pc = ⟨0, now⟩ := by
  simp only [resetWeekly]
  split
  · exact Or.inr rfl
  · exact Or.inl rfl

/-- Every branch of `afterCall` records exactly one external call. -/
lemma afterCall_calls (maxPrompts : Nat) (sessions : List (String × List Message))
    (pc : PromptCounter) (userId message : String) (conversation messages : List Message)
    (r : InferenceResult) :
    (afterCall maxPrompts sessions pc userId message conversation messages r).calls
      = [messages] := by
  cases r with
  | success reply => rfl
  | httpError status d =>
      simp only [afterCall]
      split
      · rfl
      · split <;> rfl
  | networkError m => rfl

/-- On any failure outcome `afterCall` leaves the sessions and the counter
untouched. -/
lemma afterCall_state_of_failure (maxPrompts : Nat)
    (sessions : List (String × List Message)) (pc : PromptCounter)
    (userId message : String) (conversation messages : List Message)
    (r : InferenceResult) (hr : ∀ reply, r ≠ .success reply) :
    (afterCall maxPrompts sessions pc userId message conversation messages r).state
      = ⟨sessions, pc⟩ := by
  cases r with
  | success reply => exact absurd rfl (hr reply)
  | httpError status d =>
      simp only [afterCall]
      split
      · rfl
      · split <;> rfl
  | networkError m => rfl

/-- The counter after `afterCall` stays within the maximum when the check
passed beforehand. -/
lemma afterCall_count_le (maxPrompts : Nat) (sessions : List (String × List Message))
    (pc : PromptCounter) (userId message : String) (conversation messages : List Message)
    (r : InferenceResult) (h : pc.count < maxPrompts) :
    (afterCall maxPrompts sessions pc userId message conversation messages r).state.promptCounter.count
      ≤ maxPrompts := by
  cases r with
  | success reply => exact h
  | httpError status d =>
      simp only [afterCall]
      split
      · exact Nat.le_of_lt h
      · split <;> exact Nat.le_of_lt h
  | networkError m => exact Nat.le_of_lt h

/-- Reduction of the chat handler on a request that passes validation, the
session lookup and the quota check. -/
lemma chatHandler_eq (maxPrompts now : Nat) (apiKey : String)
    (infer : String → List Message → InferenceResult) (st : ServerState)
    (userId message : String) (conversation : List Message)
    (hu : userId ≠ "") (hm : message ≠ "")
    (hs : st.userSessions.lookup userId = some conversation)
    (hq : (resetWeekly now st.promptCounter).count < maxPrompts) :
    chatHandler maxPrompts now apiKey infer st userId message
      = afterCall maxPrompts st.userSessions (resetWeekly now st.promptCounter)
          userId message conversation (contextMessages conversation message)
          (infer apiKey (contextMessages conversation message)) := by
  have hv : ¬ (userId = "" ∨ message = "") := by simp [hu, hm]
  have hq' : ¬ (resetWeekly now st.promptCounter).count ≥ maxPrompts := Nat.not_le.2 hq
  simp only [chatHandler, hv, if_false, hs, hq', ite_false]

/-- Reduction of the chat handler on a request rejected by the quota check. -/
lemma chatHandler_eq_quota (maxPrompts now : Nat) (apiKey : String)
    (infer : String → List Message → InferenceResult) (st : ServerState)
    (userId message : String) (conversation : List Message)
    (hu : userId ≠ "") (hm : message ≠ "")
    (hs : st.userSessions.lookup userId = some conversation)
    (hq : maxPrompts ≤ (resetWeekly now st.promptCounter).count) :
    chatHandler maxPrompts now apiKey infer st userId message
      = ⟨⟨st.userSessions, resetWeekly now st.promptCounter⟩,
         ⟨429, .errorWithCode (quotaErrorMsg maxPrompts) "WEEKLY_LIMIT_EXCEEDED"⟩, []⟩ := by
  have hv : ¬ (userId = "" ∨ message = "") := by simp [hu, hm]
  have hq' : (resetWeekly now st.promptCounter).count ≥ maxPrompts := hq
  simp only [chatHandler, hv, if_false, hs, hq', ite_true]

lemma lastN_of_length_le {α : Type} {l : List α} {n : Nat} (h : l.length ≤ n) :
    lastN n l = l := by
  simp [lastN, Nat.sub_eq_zero_of_le h]

lemma lastN_length_le {α : Type} (n : Nat) (l : List α) : (lastN n l).length ≤ n := by
  simp only [lastN, List.length_drop]
  omega

lemma trimHistory_eq_lastN (l : List Message) : trimHistory l = lastN 20 l := by
  unfold trimHistory lastN
  split
  · rfl
  · rename_i h
    rw [Nat.sub_eq_zero_of_le (Nat.le_of_not_lt h), List.drop_zero]

lemma trimHistory_length_le (l : List Message) : (trimHistory l).length ≤ 20 := by
  rw [trimHistory_eq_lastN]
  exact lastN_length_le 20 l

lemma appendExchange_length_le (conversation : List Message) (u a : String) :
    (appendExchange conversation u a).length ≤ 20 :=
  trimHistory_length_le _

lemma lastN_eq_reverse_take {α : Type} (n : Nat) (l : List α) :
    lastN n l = (l.reverse.take n).reverse := by
  rw [List.take_reverse, List.reverse_reverse]
  rfl

lemma take_append_take {α : Type} (n : Nat) (b a : List α) :
    (b ++ a.take n).take n = (b ++ a).take n := by
  rw [List.take_append_eq_append_take, List.take_append_eq_append_take, List.take_take,
    Nat.min_eq_left (Nat.sub_le n b.length)]

lemma lastN_append_lastN {α : Type} (n : Nat) (xs ys : List α) :
    lastN n (lastN n xs ++ ys) = lastN n (xs ++ ys) := by
  have h1 : (lastN n xs).reverse = xs.reverse.take n := by
    rw [lastN_eq_reverse_take, List.reverse_reverse]
  calc lastN n (lastN n xs ++ ys)
      = (((lastN n xs ++ ys).reverse).take n).reverse := lastN_eq_reverse_take n _
    _ = ((ys.reverse ++ (lastN n xs).reverse).take n).reverse := by
        rw [List.reverse_append]
    _ = ((ys.reverse ++ xs.reverse.take n).take n).reverse := by rw [h1]
    _ = ((ys.reverse ++ xs.reverse).take n).reverse := by rw [take_append_take]
    _ = (((xs ++ ys).reverse).take n).reverse := by rw [← List.reverse_append]
    _ = lastN n (xs ++ ys) := (lastN_eq_reverse_take n _).symm

lemma fullLog_cons (p : String × String) (ps : List (String × String)) :
    fullLog (p :: ps) = ⟨"user", p.1⟩ :: ⟨"assistant", p.2⟩ :: fullLog ps := by
  simp [fullLog]

/-- The iterated history update keeps exactly the most recent 20 entries of
the untruncated transcript. -/
lemma runExchangesFrom_eq (pairs : List (String × String)) :
    ∀ conversation : List Message, conversation.length ≤ 20 →
      runExchangesFrom conversation pairs = lastN 20 (conversation ++ fullLog pairs) := by
  induction pairs with
  | nil =>
      intro conversation h
      simp only [runExchangesFrom, List.foldl_nil, fullLog, List.flatMap_nil,
        List.append_nil]
      exact (lastN_of_length_le h).symm
  | cons p ps ih =>
      intro conversation h
      have step : runExchangesFrom conversation (p :: ps)
          = runExchangesFrom (appendExchange conversation p.1 p.2) ps := rfl
      rw [step, ih _ (appendExchange_length_le conversation p.1 p.2)]
      have ha : appendExchange conversation p.1 p.2
          = lastN 20 (conversation ++ [⟨"user", p.1⟩, ⟨"assistant", p.2⟩]) :=
        trimHistory_eq_lastN _
      rw [ha, lastN_append_lastN, List.append_assoc, fullLog_cons]
      rfl

lemma runExchanges_eq (pairs : List (String × String)) :
    runExchanges pairs = lastN 20 (fullLog pairs) := by
  have h := runExchangesFrom_eq pairs [] (by simp)
  simpa [runExchanges] using h

lemma runExchanges_length_le (pairs : List (String × String)) :
    (runExchanges pairs).length ≤ 20 := by
  rw [runExchanges_eq]
  exact lastN_length_le 20 _

/-- An induction principle following the user/assistant pairing of a
history. -/
theorem pairInduction {P : List Message → Prop} (h0 : P []) (h1 : ∀ m, P [m])
    (h2 : ∀ u a rest, P rest → P (u :: a :: rest)) : ∀ l, P l
  | [] => h0
  | [m] => h1 m
  | u :: a :: rest => h2 u a rest (pairInduction h0 h1 h2 rest)

lemma wfHistory_even {l : List Message} : wfHistory l = true → l.length % 2 = 0 := by
  induction l using pairInduction with
  | h0 => intro; rfl
  | h1 m => intro h; exact absurd h (by simp [wfHistory])
  | h2 u a rest ih =>
      intro h
      simp only [wfHistory, Bool.and_eq_true] at h
      have := ih h.2
      simp only [List.length_cons]
      omega

lemma wfHistory_getD {l : List Message} (h : wfHistory l = true) :
    ∀ i, i < l.length →
      (l.getD i ⟨"", ""⟩).role = if i % 2 = 0 then "user" else "assistant" := by
  induction l using pairInduction with
  | h0 => intro i hi; exact absurd hi (by simp)
  | h1 m => exact absurd h (by simp [wfHistory])
  | h2 u a rest ih =>
      simp only [wfHistory, Bool.and_eq_true, beq_iff_eq] at h
      intro i hi
      match i with
      | 0 => simpa using h.1.1
      | 1 => simpa using h.1.2
      | Nat.succ (Nat.succ j) =>
          have hj : j < rest.length := by
            simp only [List.length_cons] at hi
            omega
          have := ih h.2 j hj
          have hmod : (j + 2) % 2 = j % 2 := by omega
          simpa [List.getD_cons_succ, hmod] using this

lemma wfHistory_append_pair {l : List Message} (u a : String)
    (h : wfHistory l = true) :
    wfHistory (l ++ [⟨"user", u⟩, ⟨"assistant", a⟩]) = true := by
  induction l using pairInduction with
  | h0 => simp [wfHistory]
  | h1 m => exact absurd h (by simp [wfHistory])
  | h2 x y rest ih =>
      simp only [wfHistory, Bool.and_eq_true] at h
      simp only [List.cons_append, wfHistory, Bool.and_eq_true]
      exact ⟨h.1, ih h.2⟩

lemma wfHistory_drop_two {l : List Message} (h : wfHistory l = true) :
    wfHistory (l.drop 2) = true := by
  match l with
  | [] => exact h
  | [m] => exact absurd h (by simp [wfHistory])
  | u :: a :: rest =>
      simp only [wfHistory, Bool.and_eq_true] at h
      simpa using h.2

lemma wfHistory_drop_even {l : List Message} (j : Nat) (h : wfHistory l = true) :
    wfHistory (l.drop (2 * j)) = true := by
  induction j generalizing l with
  | zero => simpa using h
  | succ k ih =>
      have : l.drop (2 * (k + 1)) = (l.drop 2).drop (2 * k) := by
        rw [List.drop_drop]
        congr 1
        omega
      rw [this]
      exact ih (wfHistory_drop_two h)

lemma wfHistory_trim {l : List Message} (h : wfHistory l = true) :
    wfHistory (trimHistory l) = true := by
  have heven := wfHistory_even h
  obtain ⟨j, hj⟩ : ∃ j, l.length - 20 = 2 * j := ⟨(l.length - 20) / 2, by omega⟩
  rw [trimHistory_eq_lastN]
  unfold lastN
  rw [hj]
  exact wfHistory_drop_even j h

lemma wfHistory_appendExchange {conversation : List Message} (u a : String)
    (h : wfHistory conversation = true) :
    wfHistory (appendExchange conversation u a) = true :=
  wfHistory_trim (wfHistory_append_pair u a h)

lemma wfHistory_runExchangesFrom (pairs : List (String × String)) :
    ∀ conversation, wfHistory conversation = true →
      wfHistory (runExchangesFrom conversation pairs) = true := by
  induction pairs with
  | nil => intro conversation h; exact h
  | cons p ps ih =>
      intro conversation h
      exact ih _ (wfHistory_appendExchange p.1 p.2 h)

/-- A single chat request never takes the counter above the maximum when it
was within the maximum before. -/
lemma chatHandler_count_le (maxPrompts now : Nat) (apiKey : String)
    (infer : String → List Message → InferenceResult) (st : ServerState)
    (userId message : String) (h : st.promptCounter.count ≤ maxPrompts) :
    (chatHandler maxPrompts now apiKey infer st userId message).state.promptCounter.count
      ≤ maxPrompts := by
  have hr : (resetWeekly now st.promptCounter).count ≤ maxPrompts := by
    rcases resetWeekly_cases now st.promptCounter with h1 | h1 <;> rw [h1]
    · exact h
    · exact Nat.zero_le _
  unfold chatHandler
  split
  · exact h
  · split
    · exact h
    · rename_i conversation heq
      split
      · exact hr
      · rename_i hq
        exact afterCall_count_le maxPrompts st.userSessions
          (resetWeekly now st.promptCounter) userId message conversation
          (contextMessages conversation message) _ (Nat.lt_of_not_ge hq)

/-- A concrete state whose counter already stands at the maximum for
`maxPrompts = 1`. -/
def exStFull : ServerState := ⟨[("u", [])], ⟨1, 0⟩⟩

/-!
## Claim theorems
-/

/-- C1 counterexample: at a concrete request that passes validation and the
quota check and whose external call then fails (upstream 503), the call was
issued (`calls ≠ []`) yet the counter afterwards is 0, not
before-plus-one.  The increment (line 164) runs after the awaited external
call, so a failed call does not consume quota, contradicting the claim. -/
theorem charge_before_call_cex :
    (chatHandler 4000 0 "k" (fun _ _ => .httpError 503 "boom") exSt "u" "hi").calls ≠ [] ∧
    (chatHandler 4000 0 "k" (fun _ _ => .httpError 503 "boom") exSt "u"
        "hi").state.promptCounter.count = 0 ∧
    ¬ ((chatHandler 4000 0 "k" (fun _ _ => .httpError 503 "boom") exSt "u"
        "hi").state.promptCounter.count = exSt.promptCounter.count + 1) := by
  decide

/-- C1 (amended): the quota counter is incremented only after the external
inference call returns successfully; a request whose call fails with any
classified error consumes no quota — the counter observed after the failed
request equals the counter before it (after the lazy weekly reset), and the
session history is untouched, even though the external call was issued. -/
theorem failed_call_consumes_no_quota (maxPrompts now : Nat) (apiKey : String)
    (infer : String → List Message → InferenceResult) (st : ServerState)
    (userId message : String) (conversation : List Message)
    (hu : userId ≠ "") (hm : message ≠ "")
    (hs : st.userSessions.lookup userId = some conversation)
    (hq : (resetWeekly now st.promptCounter).count < maxPrompts)
    (hf : ∀ reply, infer apiKey (contextMessages conversation message) ≠ .success reply) :
    (chatHandler maxPrompts now apiKey infer st userId message).calls
        = [contextMessages conversation message] ∧
    (chatHandler maxPrompts now apiKey infer st userId message).state.promptCounter.count
        = (resetWeekly now st.promptCounter).count ∧
    (chatHandler maxPrompts now apiKey infer st userId message).state.userSessions
        = st.userSessions := by
  rw [chatHandler_eq maxPrompts now apiKey infer st userId message conversation hu hm hs hq]
  refine ⟨afterCall_calls _ _ _ _ _ _ _ _, ?_, ?_⟩ <;>
    rw [afterCall_state_of_failure _ _ _ _ _ _ _ _ hf]

/-- C1 witness: the amended theorem applied at the concrete failing request. -/
theorem failed_call_consumes_no_quota_witness :
    (chatHandler 4000 0 "k" (fun _ _ => .httpError 503 "x") exSt "u"
        "hi").state.promptCounter.count
      = (resetWeekly 0 exSt.promptCounter).count := by
  have h := failed_call_consumes_no_quota 4000 0 "k" (fun _ _ => .httpError 503 "x")
    exSt "u" "hi" [] (by decide) (by decide) (by decide) (by decide)
    (by intro reply hcontra; exact InferenceResult.noConfusion hcontra)
  exact h.2.1

/-- C2 counterexample: the quota check (before the `await`) and the
increment (after it) are not one atomic operation.  With maximum 1 and two
concurrent requests, the schedule that runs both checks before either
increment drives the counter to 2 > 1. -/
theorem concurrent_quota_race_cex :
    (concRun 1 ⟨0, [.checking, .checking]⟩ [0, 1, 0, 1]).count = 2 ∧
    ¬ ((concRun 1 ⟨0, [.checking, .checking]⟩ [0, 1, 0, 1]).count ≤ 1) := by
  decide

/-- C2 (amended): the check and the increment straddle the awaited external
call, so interleaved requests can drive the counter past the maximum; only
under serialized execution — each request's handler running to completion
before the next starts — does the counter never exceed
`MAX_PROMPTS_PER_WEEK`. -/
theorem sequential_quota_bound (maxPrompts now : Nat) (apiKey : String)
    (infer : String → List Message → InferenceResult) (st : ServerState)
    (reqs : List (String × String)) (h : st.promptCounter.count ≤ maxPrompts) :
    (runChats maxPrompts now apiKey infer st reqs).promptCounter.count ≤ maxPrompts := by
  induction reqs generalizing st with
  | nil => exact h
  | cons r rs ih =>
      exact ih ((chatHandler maxPrompts now apiKey infer st r.1 r.2).state)
        (chatHandler_count_le maxPrompts now apiKey infer st r.1 r.2 h)

/-- C2 witness: the amended theorem applied to a concrete batch of three
requests against maximum 1. -/
theorem sequential_quota_bound_witness :
    (runChats 1 0 "k" (fun _ _ => .success "r") exSt
        [("u", "a"), ("u", "b"), ("u", "c")]).promptCounter.count ≤ 1 :=
  sequential_quota_bound 1 0 "k" (fun _ _ => .success "r") exSt
    [("u", "a"), ("u", "b"), ("u", "c")] (by decide)

/-- C3 counterexample: when the upstream reports 429, the gateway answers
429 — a 4xx, not the 5xx the claim requires. -/
theorem upstream_rate_limit_status_cex :
    (chatHandler 4000 0 "k" (fun _ _ => .httpError 429 "rl") exSt "u" "hi").resp.status
        = 429 ∧
    ¬ (500 ≤ (chatHandler 4000 0 "k" (fun _ _ => .httpError 429 "rl") exSt "u"
        "hi").resp.status) := by
  decide

/-- C3 (amended): when the external service reports it is rate-limited
(upstream HTTP 429), the gateway passes the condition through as a 429
response with a fixed busy message — a 4xx, not a 5xx — and leaves the
sessions and the (reset) counter unchanged. -/
theorem upstream_rate_limit_maps_to_429 (maxPrompts now : Nat) (apiKey : String)
    (infer : String → List Message → InferenceResult) (st : ServerState)
    (userId message : String) (conversation : List Message) (d : String)
    (hu : userId ≠ "") (hm : message ≠ "")
    (hs : st.userSessions.lookup userId = some conversation)
    (hq : (resetWeekly now st.promptCounter).count < maxPrompts)
    (hr : infer apiKey (contextMessages conversation message) = .httpError 429 d) :
    (chatHandler maxPrompts now apiKey infer st userId message).resp
        = ⟨429, .errorMsg "Limite de l\x27API OpenAI atteinte, réessayez plus tard"⟩ ∧
    (chatHandler maxPrompts now apiKey infer st userId message).state
        = ⟨st.userSessions, resetWeekly now st.promptCounter⟩ := by
  rw [chatHandler_eq maxPrompts now apiKey infer st userId message conversation hu hm hs hq,
    hr]
  exact ⟨rfl, rfl⟩

/-- C3 witness: the amended theorem applied at a concrete rate-limited
request. -/
theorem upstream_rate_limit_maps_to_429_witness :
    (chatHandler 4000 5 "k" (fun _ _ => .httpError 429 "rl") exSt "u" "hello").resp
      = ⟨429, .errorMsg "Limite de l\x27API OpenAI atteinte, réessayez plus tard"⟩ := by
  have h := upstream_rate_limit_maps_to_429 4000 5 "k" (fun _ _ => .httpError 429 "rl")
    exSt "u" "hello" [] "rl" (by decide) (by decide) (by decide) (by decide) rfl
  exact h.1

/-- C4 counterexample: a state whose window has fully elapsed and whose
counter reads 5.  The reset check would report 0 prompts used, but
`/api/health` reports the stale 5: the endpoint reads the count without
performing the lazy reset, contradicting the claim that every endpoint that
reports `promptsUsed` runs the reset check first. -/
theorem health_reset_cex :
    (healthHandler 4000 weekMs ⟨[], ⟨5, 0⟩⟩).2.body = .healthBody "OK" weekMs 5 4000 ∧
    (resetWeekly weekMs ⟨5, 0⟩).count = 0 ∧ (5 : Nat) ≠ 0 := by
  decide

/-- C4 (amended): among the endpoints that report the quota count,
`/api/stats` performs the lazy window-reset check before reading the count
(after an elapsed window it reports 0 used and the full maximum remaining,
and persists the reset), while `/api/health` reports the raw stored count
without the reset check and without touching the state. -/
theorem lazy_reset_coverage (maxPrompts now : Nat) (st : ServerState)
    (h : weekMs ≤ now - st.promptCounter.weekStart) :
    (statsHandler maxPrompts now st).2.body = .statsBody 0 maxPrompts maxPrompts now ∧
    (statsHandler maxPrompts now st).1.promptCounter = ⟨0, now⟩ ∧
    (healthHandler maxPrompts now st).2.body
      = .healthBody "OK" now st.promptCounter.count maxPrompts ∧
    (healthHandler maxPrompts now st).1 = st := by
  have hf := resetWeekly_fire h
  refine ⟨?_, ?_, rfl, rfl⟩ <;> simp [statsHandler, hf]

/-- C4 witness: the amended theorem applied at the concrete stale state. -/
theorem lazy_reset_coverage_witness :
    (statsHandler 4000 weekMs (⟨[], ⟨5, 0⟩⟩ : ServerState)).2.body
      = .statsBody 0 4000 4000 weekMs := by
  have h := lazy_reset_coverage 4000 weekMs ⟨[], ⟨5, 0⟩⟩ (by decide)
  exact h.1

/-- C5: after any sequence of successful chat exchanges starting from the
empty history, the stored history has at most 20 entries, it consists of
exactly the most recent entries of the untruncated transcript in their
original order, and the just-appended user/assistant pair sits at the
end. -/
theorem history_bound_and_recency (pairs : List (String × String)) :
    (runExchanges pairs).length ≤ 20 ∧
    runExchanges pairs = lastN 20 (fullLog pairs) ∧
    ∀ ps : List (String × String), ∀ u a : String,
      ∃ pre, runExchanges (ps ++ [(u, a)])
        = pre ++ [⟨"user", u⟩, ⟨"assistant", a⟩] := by
  refine ⟨runExchanges_length_le pairs, runExchanges_eq pairs, ?_⟩
  intro ps u a
  have h1 : runExchanges (ps ++ [(u, a)]) = appendExchange (runExchanges ps) u a := by
    simp [runExchanges, runExchangesFrom, List.foldl_append]
  have h2 : (runExchanges ps).length ≤ 20 := runExchanges_length_le ps
  have hlen : ((runExchanges ps) ++ [(⟨"user", u⟩ : Message), ⟨"assistant", a⟩]).length
      = (runExchanges ps).length + 2 := by simp
  have hk : ((runExchanges ps) ++ [(⟨"user", u⟩ : Message), ⟨"assistant", a⟩]).length - 20
      ≤ (runExchanges ps).length := by omega
  refine ⟨(runExchanges ps).drop
    (((runExchanges ps) ++ [(⟨"user", u⟩ : Message), ⟨"assistant", a⟩]).length - 20), ?_⟩
  rw [h1]
  unfold appendExchange
  rw [trimHistory_eq_lastN]
  unfold lastN
  rw [List.drop_append_of_le_length hk]

/-- C6: on an existing session, when the (lazily reset) counter has reached
the maximum, the gateway answers 429 with the stable code
`WEEKLY_LIMIT_EXCEEDED`, issues no external call, and leaves the session
map and the counter unchanged (the counter exactly unchanged whenever the
maximum is positive; in general unchanged apart from the lazy reset
itself). -/
theorem quota_exceeded_rejects (maxPrompts now : Nat) (apiKey : String)
    (infer : String → List Message → InferenceResult) (st : ServerState)
    (userId message : String) (conversation : List Message)
    (hu : userId ≠ "") (hm : message ≠ "")
    (hs : st.userSessions.lookup userId = some conversation)
    (hq : maxPrompts ≤ (resetWeekly now st.promptCounter).count) :
    (chatHandler maxPrompts now apiKey infer st userId message).resp.status = 429 ∧
    (chatHandler maxPrompts now apiKey infer st userId message).resp.body
      = .errorWithCode (quotaErrorMsg maxPrompts) "WEEKLY_LIMIT_EXCEEDED" ∧
    (chatHandler maxPrompts now apiKey infer st userId message).state.userSessions
      = st.userSessions ∧
    (chatHandler maxPrompts now apiKey infer st userId message).state.promptCounter
      = resetWeekly now st.promptCounter ∧
    (chatHandler maxPrompts now apiKey infer st userId message).calls = [] ∧
    (0 < maxPrompts →
      (chatHandler maxPrompts now apiKey infer st userId message).state.promptCounter
        = st.promptCounter) := by
  rw [chatHandler_eq_quota maxPrompts now apiKey infer st userId message conversation
    hu hm hs hq]
  refine ⟨rfl, rfl, rfl, rfl, rfl, ?_⟩
  intro hpos
  rcases resetWeekly_cases now st.promptCounter with h1 | h1
  · exact h1
  · rw [h1] at hq
    exact absurd hq (by simpa using Nat.not_le.2 hpos)

/-- C6 witness: the theorem applied at a concrete full-quota request with
maximum 1 and counter 1. -/
theorem quota_exceeded_rejects_witness :
    (chatHandler 1 0 "k" (fun _ _ => .success "r") exStFull "u" "hi").resp.status = 429 ∧
    (chatHandler 1 0 "k" (fun _ _ => .success "r") exStFull "u" "hi").calls = [] ∧
    (chatHandler 1 0 "k" (fun _ _ => .success "r") exStFull "u" "hi").state.promptCounter
      = exStFull.promptCounter := by
  have h := quota_exceeded_rejects 1 0 "k" (fun _ _ => .success "r") exStFull "u" "hi" []
    (by decide) (by decide) (by decide) (by decide)
  exact ⟨h.1, h.2.2.2.2.1, h.2.2.2.2.2 (by decide)⟩

/-- C7: the weekly reset fires exactly when at least `weekMs` milliseconds
have elapsed since the window start (given a clock that has not gone
backwards): it then zeroes the count and moves the window start to now;
under a week of elapsed time it changes nothing, and the check is
idempotent within a window. -/
theorem resetWeekly_window_spec (now : Nat) (pc : PromptCounter)
    (h : pc.weekStart ≤ now) :
    (weekMs ≤ now - pc.weekStart → resetWeekly now pc = ⟨0, now⟩) ∧
    (now - pc.weekStart < weekMs → resetWeekly now pc = pc) ∧
    resetWeekly now (resetWeekly now pc) = resetWeekly now pc := by
  refine ⟨fun hf => resetWeekly_fire hf, fun hsk => resetWeekly_skip hsk, ?_⟩
  rcases Nat.lt_or_ge (now - pc.weekStart) weekMs with hsk | hf
  · rw [resetWeekly_skip hsk, resetWeekly_skip hsk]
  · rw [resetWeekly_fire hf]
    exact resetWeekly_skip (by simpa using weekMs_pos)

/-- C7 witness: the theorem applied at exactly one elapsed week (reset
fires) and at 10 elapsed milliseconds (no change). -/
theorem resetWeekly_window_spec_witness :
    resetWeekly weekMs ⟨3, 0⟩ = ⟨0, weekMs⟩ ∧ resetWeekly 10 ⟨3, 0⟩ = ⟨3, 0⟩ := by
  have h1 := resetWeekly_window_spec weekMs ⟨3, 0⟩ (by decide)
  have h2 := resetWeekly_window_spec 10 ⟨3, 0⟩ (by decide)
  exact ⟨h1.1 (by decide), h2.2.1 (by decide)⟩

/-- C8: every request that reaches invocation sends to the inference
service exactly one message sequence: the fixed system instruction, then
the session's current stored history in order, then the new user message —
regardless of how the call turns out. -/
theorem context_assembly_exact (maxPrompts now : Nat) (apiKey : String)
    (infer : String → List Message → InferenceResult) (st : ServerState)
    (userId message : String) (conversation : List Message)
    (hu : userId ≠ "") (hm : message ≠ "")
    (hs : st.userSessions.lookup userId = some conversation)
    (hq : (resetWeekly now st.promptCounter).count < maxPrompts) :
    (chatHandler maxPrompts now apiKey infer st userId message).calls
      = [contextMessages conversation message] ∧
    contextMessages conversation message
      = [systemMessage] ++ conversation ++ [⟨"user", message⟩] := by
  constructor
  · rw [chatHandler_eq maxPrompts now apiKey infer st userId message conversation hu hm hs hq]
    exact afterCall_calls _ _ _ _ _ _ _ _
  · simp [contextMessages]

/-- C8 witness: the theorem applied at a concrete request. -/
theorem context_assembly_exact_witness :
    (chatHandler 4000 0 "k" (fun _ _ => .success "ok") exSt "u" "salut").calls
      = [contextMessages [] "salut"] := by
  have h := context_assembly_exact 4000 0 "k" (fun _ _ => .success "ok") exSt "u" "salut" []
    (by decide) (by decide) (by decide) (by decide)
  exact h.1

/-- C9: when the inference service rejects the credentials (upstream HTTP
401), `/api/chat` answers 500 with the fixed body "Clé API OpenAI
invalide"; two runs that differ only in the API key and in the raw upstream
error payload produce identical client-visible responses — neither leaks
into the response. -/
theorem auth_failure_fixed_response (maxPrompts now : Nat) (k1 k2 : String)
    (infer1 infer2 : String → List Message → InferenceResult) (st : ServerState)
    (userId message : String) (conversation : List Message) (d1 d2 : String)
    (hu : userId ≠ "") (hm : message ≠ "")
    (hs : st.userSessions.lookup userId = some conversation)
    (hq : (resetWeekly now st.promptCounter).count < maxPrompts)
    (h1 : infer1 k1 (contextMessages conversation message) = .httpError 401 d1)
    (h2 : infer2 k2 (contextMessages conversation message) = .httpError 401 d2) :
    (chatHandler maxPrompts now k1 infer1 st userId message).resp
      = ⟨500, .errorMsg "Clé API OpenAI invalide"⟩ ∧
    (chatHandler maxPrompts now k1 infer1 st userId message).resp
      = (chatHandler maxPrompts now k2 infer2 st userId message).resp := by
  rw [chatHandler_eq maxPrompts now k1 infer1 st userId message conversation hu hm hs hq,
    chatHandler_eq maxPrompts now k2 infer2 st userId message conversation hu hm hs hq,
    h1, h2]
  exact ⟨rfl, rfl⟩

/-- C9 witness: the theorem applied at two concrete runs differing only in
the credential and the upstream payload. -/
theorem auth_failure_fixed_response_witness :
    (chatHandler 4000 0 "secret1" (fun _ _ => .httpError 401 "payload1") exSt "u" "hi").resp
      = ⟨500, .errorMsg "Clé API OpenAI invalide"⟩ ∧
    (chatHandler 4000 0 "secret1" (fun _ _ => .httpError 401 "payload1") exSt "u" "hi").resp
      = (chatHandler 4000 0 "secret2" (fun _ _ => .httpError 401 "payload2") exSt "u"
          "hi").resp :=
  auth_failure_fixed_response 4000 0 "secret1" "secret2"
    (fun _ _ => .httpError 401 "payload1") (fun _ _ => .httpError 401 "payload2")
    exSt "u" "hi" [] "payload1" "payload2"
    (by decide) (by decide) (by decide) (by decide) rfl rfl

/-- C10: every reachable session history is a sequence of user/assistant
pairs: it has even length and role "user" at even indices and "assistant"
at odd ones — histories start empty, grow only by whole pairs, and the trim
always removes an even number of entries from the front. -/
theorem history_alternation_invariant (pairs : List (String × String)) :
    wfHistory (runExchanges pairs) = true ∧
    (runExchanges pairs).length % 2 = 0 ∧
    ∀ i, i < (runExchanges pairs).length →
      ((runExchanges pairs).getD i ⟨"", ""⟩).role
        = if i % 2 = 0 then "user" else "assistant" := by
  have hwf : wfHistory (runExchanges pairs) = true :=
    wfHistory_runExchangesFrom pairs [] rfl
  exact ⟨hwf, wfHistory_even hwf, wfHistory_getD hwf⟩

/-- C10 witness: the theorem applied at a concrete one-exchange history. -/
theorem history_alternation_invariant_witness :
    ((runExchanges [("a", "b")]).getD 0 ⟨"", ""⟩).role = "user" ∧
    (runExchanges [("a", "b")]).length % 2 = 0 := by
  have h := history_alternation_invariant [("a", "b")]
  refine ⟨?_, h.2.1⟩
  have h0 := h.2.2 0 (by decide)
  simpa using h0

end Gpt360
